import Mathlib

/-!
Verification development for the paired ESP firmware project: a shallow
embedding of the contracts desired-state codec (src/contracts/include/contracts.hpp),
the minimal RESP client (src/include/redis_link.hpp) and the reconciliation
engines of the receiver (src/esp-receiver/src/main.cpp) and the sender
(src/esp-sender/src/main.cpp), together with theorems settling the frozen
claims about them.

Machine integers are modelled as Nat with explicit mod 2^32 where uint32
overflow matters.  The ArduinoJson library is excluded by the specification
(treated as a given serialize/parse primitive), so a parsed JSON document is
modelled as a record of the optional fields the firmware reads, with
Option JsonDoc standing for the result of deserializeJson (none = parse error).
-/

/-! ## Data model: contracts::Desired and the JSON document abstraction -/

/-- Mirrors struct contracts::Desired: mode is a small C string holding
exactly the text on or off after a successful copyMode, brightness a uint8,
ver a uint32. -/
structure Desired where
  mode : String
  brightness : Nat
  ver : Nat
deriving DecidableEq, Repr

/-- The uint32 modulus 2^32. -/
def uint32Mod : Nat := 4294967296

/-- Abstraction of a deserialized ArduinoJson document holding the fields the
firmware reads.  A field the payload does not carry (or carries with an
unusable type) is none. -/
structure JsonDoc where
  mode : Option String
  brightness : Option Int
  ver : Option Int
  room : Option String
deriving DecidableEq, Repr

/-- The default-initialized contracts::Desired value: off, 0, 0. -/
def defaultDesired : Desired :=
  { mode := ("off"), brightness := 0, ver := 0 }

/-- Mirrors contracts::copyMode: accept only the exact strings on and off
(case-sensitive) and copy into the destination mode; any other or missing
source is a failure. -/
def copyMode (src : Option String) (dst : Desired) : Option Desired :=
  match src with
  | none => none
  | some s =>
    if s = ("on") ∨ s = ("off") then some { dst with mode := s } else none

/-- Mirrors contracts::clampBrightness: values above 100 become 100 (the
field is unsigned, so no lower clamp exists in the source). -/
def clampBrightness (d : Desired) : Desired :=
  if d.brightness > 100 then { d with brightness := 100 } else d

/-- Models the ArduinoJson defaulting operator for a uint8 destination: the
stored value is used when it fits the unsigned 8-bit range, otherwise the
prior value is kept. -/
def jsonOrUInt8 (v : Option Int) (dflt : Nat) : Nat :=
  match v with
  | none => dflt
  | some n => if 0 ≤ n ∧ n ≤ 255 then n.toNat else dflt

/-- Models the ArduinoJson defaulting operator for a uint32 destination. -/
def jsonOrUInt32 (v : Option Int) (dflt : Nat) : Nat :=
  match v with
  | none => dflt
  | some n => if 0 ≤ n ∧ n ≤ 4294967295 then n.toNat else dflt

/-- Mirrors contracts::decodeDesired (and the receiver's decodeDesiredJson,
which differs only in logging): fail on a parse error or an invalid mode,
merge brightness and ver onto the prior struct with clamping after the
brightness merge. -/
def decodeDesired (doc? : Option JsonDoc) (prior : Desired) : Option Desired :=
  match doc? with
  | none => none
  | some doc =>
    match copyMode doc.mode prior with
    | none => none
    | some d1 =>
      let d2 := clampBrightness { d1 with brightness := jsonOrUInt8 doc.brightness d1.brightness }
      some { d2 with ver := jsonOrUInt32 doc.ver d2.ver }

/-- Mirrors contracts::encodeDesired: always emit mode, brightness and ver;
emit room only when a non-empty room id is supplied. -/
def encodeDesired (d : Desired) (roomId : Option String) : JsonDoc :=
  { mode := some d.mode
    brightness := some ((d.brightness : Nat) : Int)
    ver := some ((d.ver : Nat) : Int)
    room :=
      match roomId with
      | none => none
      | some r => if r.length > 0 then some r else none }

/-- Mirrors contracts::sameDesired: brightness, ver and mode must all match. -/
def sameDesired (lhs rhs : Desired) : Bool :=
  lhs.brightness == rhs.brightness && lhs.ver == rhs.ver && lhs.mode == rhs.mode

/-! ## Key and stream naming (contracts.hpp) -/

/-- Mirrors contracts::makeRoomKey. -/
def makeRoomKey (roomId : String) (suffix : String) : String :=
  ("room:") ++ roomId ++ suffix

/-- Mirrors contracts::key_desired. -/
def key_desired (roomId : String) : String := makeRoomKey roomId (":desired")

/-- Mirrors contracts::key_reported. -/
def key_reported (roomId : String) : String := makeRoomKey roomId (":reported")

/-- Mirrors contracts::stream_cmd. -/
def stream_cmd (roomId : String) : String := ("cmd:room:") ++ roomId

/-- Mirrors contracts::stream_state. -/
def stream_state (roomId : String) : String := ("state:room:") ++ roomId

/-! ## RESP wire codec (redis_link.hpp)

The byte stream is modelled as a List Char (each char one byte; all traffic
of this client is ASCII-framed with binary-safe length-prefixed payloads).
The bytes available in the model are the bytes that arrive before the read
timeout, so an exhausted list at a read models the client-side timeout. -/

/-- CRLF terminator used by RESP framing. -/
def crlf : String := "\r\n"

/-- One RESP bulk-string argument as written by RedisLink::sendCommand. -/
def encodeArg (a : String) : String :=
  ("$") ++ toString a.length ++ crlf ++ a ++ crlf

/-- The exact bytes RedisLink::sendCommand writes for an argument list:
the array header then each argument as a length-prefixed bulk string. -/
def encodeCommand (args : List String) : String :=
  ("*") ++ toString args.length ++ crlf ++ String.join (args.map encodeArg)

/-- Models Stream::readStringUntil: consume bytes up to and including the
terminator (which is discarded); an exhausted input returns what was read. -/
def readStringUntil (term : Char) : List Char → String × List Char
  | [] => (("") , [])
  | c :: rest =>
    if c = term then (("") , rest)
    else
      let p := readStringUntil term rest
      (String.mk (c :: p.1.data), p.2)

/-- Strip one trailing carriage return, as readType does on the header line. -/
def stripCr (s : String) : String :=
  if s.data.getLast? = some ('\r') then String.mk s.data.dropLast else s

/-- Retained error text for a blocking read that saw no data (readType). -/
def errTimeout : String := "redis timeout"

/-- Retained error text when sendCommand finds the link down. -/
def errDisconnected : String := "redis disconnected"

/-- Retained error text for a truncated bulk payload. -/
def errBulkTimeout : String := "bulk read timeout"

/-- Retained error text for a bulk payload missing its CRLF. -/
def errBulkCrlf : String := "bulk missing CRLF"

/-- Result of one reply-reading helper: the parsed value on success, the
error text assigned to the retained last-error string when one was assigned
during this read, and the remaining input. -/
structure RRes (α : Type) where
  val : Option α
  err : Option String
  rest : List Char
deriving DecidableEq, Repr

/-- Mirrors RedisLink::readType: one type-tag byte then a CRLF-terminated
header line; an empty input models the blocking-read timeout. -/
def readType (input : List Char) : RRes (Char × String) :=
  match input with
  | [] => { val := none, err := some errTimeout, rest := [] }
  | c :: rest =>
    let p := readStringUntil ('\n') rest
    { val := some (c, stripCr p.1), err := none, rest := p.2 }

/-- Accumulate leading decimal digits, stopping at the first non-digit, as
atol does for this client's numeric header lines. -/
def digitsVal : List Char → Nat → Nat
  | [], acc => acc
  | c :: rest, acc =>
    if c.isDigit then digitsVal rest (acc * 10 + (c.toNat - 48)) else acc

/-- Models Arduino String::toInt on a RESP header line: optional sign then
leading digits, 0 when no digits lead. -/
def toIntArduino (s : String) : Int :=
  match s.data with
  | [] => 0
  | c :: rest =>
    if c = ('-') then - Int.ofNat (digitsVal rest 0)
    else if c = ('+') then Int.ofNat (digitsVal rest 0)
    else Int.ofNat (digitsVal (c :: rest) 0)

/-- Mirrors RedisLink::readInteger. -/
def readInteger (input : List Char) : RRes Int :=
  let t := readType input
  match t.val with
  | none => { val := none, err := t.err, rest := t.rest }
  | some (ty, line) =>
    if ty = (':') then { val := some (toIntArduino line), err := none, rest := t.rest }
    else if ty = ('-') then { val := none, err := some line, rest := t.rest }
    else { val := none, err := none, rest := t.rest }

/-- Mirrors RedisLink::readBulkString: a negative declared length is the nil
reply (reported through the isNull flag with an empty string); otherwise
exactly len payload bytes followed by CRLF. -/
def readBulkString (input : List Char) : RRes (String × Bool) :=
  let t := readType input
  match t.val with
  | none => { val := none, err := t.err, rest := t.rest }
  | some (ty, line) =>
    if ty = ('$') then
      let len := toIntArduino line
      if len < 0 then { val := some ((""), true), err := none, rest := t.rest }
      else
        let n := len.toNat
        if t.rest.length < n then { val := none, err := some errBulkTimeout, rest := [] }
        else
          let body := t.rest.take n
          let r2 := t.rest.drop n
          match r2 with
          | a :: b :: r3 =>
            if a = ('\r') ∧ b = ('\n') then
              { val := some (String.mk body, false), err := none, rest := r3 }
            else { val := none, err := some errBulkCrlf, rest := r3 }
          | _ => { val := none, err := some errBulkCrlf, rest := [] }
    else if ty = ('-') then { val := none, err := some line, rest := t.rest }
    else { val := none, err := none, rest := t.rest }

/-- Mirrors RedisLink::readArrayLen: a star header yields its (possibly
negative) declared length. -/
def readArrayLen (input : List Char) : RRes Int :=
  let t := readType input
  match t.val with
  | none => { val := none, err := t.err, rest := t.rest }
  | some (ty, line) =>
    if ty = ('*') then { val := some (toIntArduino line), err := none, rest := t.rest }
    else if ty = ('-') then { val := none, err := some line, rest := t.rest }
    else { val := none, err := none, rest := t.rest }

/-! ## XREAD nested-array reply (RedisLink::readXreadPayload)

The source walks the nested reply with counted loops; each loop is modelled
as a recursion on its remaining iteration count.  The field loop advances by
two per iteration, so its iteration count is the rounded-up half of the
declared field count. -/

/-- Outcome of one of the counted reply-walking loops: the payload was
found, a read failed (optionally assigning the last-error text), or the
loop ran out of items. -/
inductive XLoop where
  | found (entryId : String) (payload : String)
  | failed (err : Option String)
  | exhausted
deriving DecidableEq, Repr

/-- The field loop of readXreadPayload: read name/value bulk pairs until the
field named p is found or the declared count is exhausted. -/
def loopFields : Nat → String → List Char → XLoop × List Char
  | 0, _, input => (XLoop.exhausted, input)
  | k + 1, entryId, input =>
    let fn := readBulkString input
    match fn.val with
    | none => (XLoop.failed fn.err, fn.rest)
    | some (fieldName, _) =>
      let fv := readBulkString fn.rest
      match fv.val with
      | none => (XLoop.failed fv.err, fv.rest)
      | some (fieldValue, _) =>
        if fieldName = ("p") then (XLoop.found entryId fieldValue, fv.rest)
        else loopFields k entryId fv.rest

/-- The entry loop of readXreadPayload: each entry is a pair of its id and a
field array; an entry with no fields is skipped. -/
def loopEntries : Nat → List Char → XLoop × List Char
  | 0, input => (XLoop.exhausted, input)
  | n + 1, input =>
    let el := readArrayLen input
    match el.val with
    | none => (XLoop.failed el.err, el.rest)
    | some entryLen =>
      if entryLen < 2 then (XLoop.failed none, el.rest)
      else
        let eid := readBulkString el.rest
        match eid.val with
        | none => (XLoop.failed eid.err, eid.rest)
        | some (entryId, _) =>
          let fc := readArrayLen eid.rest
          match fc.val with
          | none => (XLoop.failed fc.err, fc.rest)
          | some fieldCount =>
            if fieldCount ≤ 0 then loopEntries n fc.rest
            else
              match loopFields ((fieldCount.toNat + 1) / 2) entryId fc.rest with
              | (XLoop.found a b, r) => (XLoop.found a b, r)
              | (XLoop.failed e, r) => (XLoop.failed e, r)
              | (XLoop.exhausted, r) => loopEntries n r

/-- The per-stream loop of readXreadPayload: each item pairs a stream name
with its entry array; a stream with no entries is skipped. -/
def loopTop : Nat → List Char → XLoop × List Char
  | 0, input => (XLoop.exhausted, input)
  | n + 1, input =>
    let pl := readArrayLen input
    match pl.val with
    | none => (XLoop.failed pl.err, pl.rest)
    | some pairLen =>
      if pairLen < 2 then (XLoop.failed none, pl.rest)
      else
        let sn := readBulkString pl.rest
        match sn.val with
        | none => (XLoop.failed sn.err, sn.rest)
        | some _ =>
          let ec := readArrayLen sn.rest
          match ec.val with
          | none => (XLoop.failed ec.err, ec.rest)
          | some entryCount =>
            if entryCount ≤ 0 then loopTop n ec.rest
            else
              match loopEntries entryCount.toNat ec.rest with
              | (XLoop.found a b, r) => (XLoop.found a b, r)
              | (XLoop.failed e, r) => (XLoop.failed e, r)
              | (XLoop.exhausted, r) => loopTop n r

/-- Mirrors RedisLink::readXreadPayload: a null or empty top-level array is
the no-new-entry outcome and assigns no error text; otherwise the nested
arrays are walked for the first field named p. -/
def readXreadPayload (input : List Char) : RRes (String × String) :=
  let tc := readArrayLen input
  match tc.val with
  | none => { val := none, err := tc.err, rest := tc.rest }
  | some topCount =>
    if topCount ≤ 0 then { val := none, err := none, rest := tc.rest }
    else
      match loopTop topCount.toNat tc.rest with
      | (XLoop.found a b, r) => { val := some (a, b), err := none, rest := r }
      | (XLoop.failed e, r) => { val := none, err := e, rest := r }
      | (XLoop.exhausted, r) => { val := none, err := none, rest := r }

/-! ## Transport session (RedisLink command/reply cycle) -/

/-- Transport session state: connection flag, the reply bytes that will
arrive before the read timeout, and the retained last-error string. -/
structure Link where
  connected : Bool
  input : List Char
  lastError : String
deriving DecidableEq, Repr

/-- Mirrors RedisLink::sendCommand: clear the retained error, fail when the
link is down, otherwise emit the encoded command bytes (returned as the
third component). -/
def sendCommandRun (l : Link) (args : List String) : Bool × Link × String :=
  if l.connected = false then
    (false, { l with lastError := errDisconnected }, (""))
  else
    (true, { l with lastError := ("") }, encodeCommand args)

/-- Fold one reply-reading result into the session: consume the input and
overwrite the retained error only when the read assigned one. -/
def applyRead {α : Type} (l : Link) (r : RRes α) : Link :=
  { l with
    input := r.rest
    lastError :=
      match r.err with
      | some e => e
      | none => l.lastError }

/-- Mirrors RedisLink::xreadLatest: send the blocking XREAD then parse the
nested reply for the first entry id and its p field. -/
def xreadLatestRun (l : Link) (stream : String) (blockMs : Nat) (sinceId : String) :
    Option (String × String) × Link :=
  let s := sendCommandRun l
    (("XREAD") :: ("BLOCK") :: toString blockMs :: ("COUNT") :: ("1") ::
     ("STREAMS") :: stream :: sinceId :: [])
  match s.1 with
  | false => (none, s.2.1)
  | true =>
    let r := readXreadPayload s.2.1.input
    (r.val, applyRead s.2.1 r)

/-! ## Reconciliation engine, Actuator side (esp-receiver/src/main.cpp)

Store writes and physical output are modelled as an emitted effect list;
the modelled functions cover the success path of the writes (a transport
failure during the mirror writes instead routes through dropRedisR, modelled
separately below). -/

/-- The receiver state the claims are about: room identity, last applied
desired state, its validity flag and version, and the stream cursor. -/
structure ReceiverState where
  roomId : String
  lastDesired : Desired
  hasDesired : Bool
  lastAppliedVer : Nat
  lastStreamId : String
  streamCursorValid : Bool
deriving DecidableEq, Repr

/-- Side effects the actuator performs against the physical output and the
shared store. -/
inductive Effect where
  | pwm (d : Desired)
  | setReported (roomId : String) (payload : JsonDoc)
  | xaddState (roomId : String) (payload : JsonDoc)
  | xtrimState (roomId : String) (maxLen : Nat)
deriving DecidableEq, Repr

/-- Stream trim bound kStreamTrimLen shared by both firmware targets. -/
def kStreamTrimLen : Nat := 200

/-- Blocking-read duration kXreadBlockMs from the receiver. -/
def kXreadBlockMs : Nat := 1000

/-- Mirrors recordState: mirror the payload to the reported key, append it
to the acknowledgment stream, then soft-trim that stream. -/
def recordStateEffects (roomId : String) (payload : JsonDoc) : List Effect :=
  Effect.setReported roomId payload :: Effect.xaddState roomId payload ::
  Effect.xtrimState roomId kStreamTrimLen :: []

/-- Mirrors handlePayload: decode the delivered payload onto the last
applied state, drop it silently unless its version is strictly newer, and on
apply drive the output, advance last-applied and mirror the encoded state. -/
def handlePayload (st : ReceiverState) (doc? : Option JsonDoc) :
    ReceiverState × List Effect :=
  match decodeDesired doc? st.lastDesired with
  | none => (st, [])
  | some d =>
    if d.ver ≤ st.lastAppliedVer then (st, [])
    else
      let payload := encodeDesired d (some st.roomId)
      ({ st with lastDesired := d, lastAppliedVer := d.ver, hasDesired := true },
       Effect.pwm d :: recordStateEffects st.roomId payload)

/-- One delivered stream entry as processed by pumpStream: the cursor is
advanced to the delivered id before the payload is handled. -/
def deliverEntry (st : ReceiverState) (entryId : String) (doc? : Option JsonDoc) :
    ReceiverState × List Effect :=
  handlePayload { st with lastStreamId := entryId } doc?

/-- A whole delivery sequence, accumulating the emitted effects. -/
def deliverAll : ReceiverState → List (String × Option JsonDoc) →
    ReceiverState × List Effect
  | st, [] => (st, [])
  | st, (e, d) :: rest =>
    let r := deliverEntry st e d
    let r2 := deliverAll r.1 rest
    (r2.1, r.2 ++ r2.2)

/-- Mirrors resetRoomState: clear the applied state, version, cursor and
cursor validity, and drop the cached room id when asked to (the parameter
defaults to true in the source). -/
def resetRoomState (dropRoomId : Bool) (st : ReceiverState) : ReceiverState :=
  { st with
    hasDesired := false
    lastAppliedVer := 0
    streamCursorValid := false
    lastStreamId := ("")
    roomId := if dropRoomId then ("") else st.roomId }

/-- Mirrors dropRedis in the receiver: stop the connection and reset the
room state with the defaulted dropRoomId = true, whatever the failure
context was. -/
def dropRedisR (st : ReceiverState) (l : Link) : ReceiverState × Link :=
  (resetRoomState true st, { l with connected := false })

/-- The built-in default snapshot substituted when the desired key is
absent, as a parsed document. -/
def defaultSnapshotDoc : JsonDoc :=
  { mode := some ("off"), brightness := some 0, ver := some 0, room := none }

/-- Mirrors pullSnapshot on its success path: substitute the built-in
default when the key is absent, null or empty; fall back to the default
struct when the stored text does not decode; apply, record as last applied,
mirror, and invalidate the stream cursor.  The stored argument is none when
the key was absent/null/empty and otherwise carries the parse result of the
stored text. -/
def pullSnapshot (st : ReceiverState) (stored : Option (Option JsonDoc)) :
    ReceiverState × List Effect :=
  let storedDoc : Option JsonDoc :=
    match stored with
    | none => some defaultSnapshotDoc
    | some doc? => doc?
  let desired :=
    match decodeDesired storedDoc defaultDesired with
    | none => defaultDesired
    | some d => d
  let payload := encodeDesired desired (some st.roomId)
  ({ st with
      lastDesired := desired
      lastAppliedVer := desired.ver
      hasDesired := true
      streamCursorValid := false
      lastStreamId := ("") },
   Effect.pwm desired :: recordStateEffects st.roomId payload)

/-- Mirrors primeStreamCursor: requires a room id and a successful tail
query (tail = none models a failed XREVRANGE); an empty stream primes the
cursor at 0-0, otherwise at the tail id. -/
def primeStreamCursorM (st : ReceiverState) (tail : Option String) :
    Option ReceiverState :=
  if st.roomId.length = 0 then none
  else
    match tail with
    | none => none
    | some tid =>
      some { st with
        lastStreamId := if tid.length ≠ 0 then tid else ("0-0")
        streamCursorValid := true }

/-- Mirrors pumpStream: do nothing before a room id and an applied snapshot
exist; re-prime an invalid cursor (tearing down on failure); then issue the
blocking read and either deliver the entry, tear down when the retained
error is non-empty, or treat the quiet outcome as no new entry.  The parse
argument is the given JSON deserialization primitive and the final Bool
reports whether the session was torn down. -/
def pumpStreamStep (parse : String → Option JsonDoc) (st : ReceiverState)
    (l : Link) (tail : Option String) :
    ReceiverState × List Effect × Link × Bool :=
  if st.roomId.length = 0 ∨ st.hasDesired = false then (st, [], l, false)
  else
    match (if st.streamCursorValid then some st else primeStreamCursorM st tail) with
    | none =>
      let p := dropRedisR st l
      (p.1, [], p.2, true)
    | some st1 =>
      let cursor := if st1.lastStreamId.length ≠ 0 then st1.lastStreamId else ("0-0")
      let x := xreadLatestRun l (stream_cmd st1.roomId) kXreadBlockMs cursor
      match x.1 with
      | some (entryId, payload) =>
        let r := deliverEntry st1 entryId (parse payload)
        (r.1, r.2, x.2, false)
      | none =>
        if x.2.lastError.length ≠ 0 then
          let p := dropRedisR st1 x.2
          (p.1, [], p.2, true)
        else (st1, [], x.2, false)

/-! ## Reconciliation engine, Publisher side (esp-sender/src/main.cpp) -/

/-- The sender state the claims are about. -/
structure SenderState where
  roomId : String
  localVer : Nat
  needsVersionSeed : Bool
  lastDesired : Desired
deriving DecidableEq, Repr

/-- Store writes the publisher performs. -/
inductive SEffect where
  | setDesired (roomId : String) (payload : JsonDoc)
  | xaddCmd (roomId : String) (payload : JsonDoc)
  | xtrimCmd (roomId : String) (maxLen : Nat)
deriving DecidableEq, Repr

/-- Mirrors publishDesired on its success path: bump the version to
localVer+1 (uint32 arithmetic) unless the candidate is already ahead, write
the snapshot key, append the same payload to the command stream, soft-trim
it, and advance the local counter and last published state. -/
def publishDesired (st : SenderState) (desired : Desired) :
    SenderState × List SEffect :=
  let d :=
    if desired.ver ≤ st.localVer then
      { desired with ver := (st.localVer + 1) % uint32Mod }
    else desired
  let payload := encodeDesired d (some st.roomId)
  ({ st with localVer := d.ver, lastDesired := d },
   SEffect.setDesired st.roomId payload :: SEffect.xaddCmd st.roomId payload ::
   SEffect.xtrimCmd st.roomId kStreamTrimLen :: [])

/-- The publish gate of maybePublishScheduledState: a candidate equal to the
last published state (per sameDesired) is suppressed, otherwise it is
published. -/
def attemptPublish (st : SenderState) (candidate : Desired) :
    SenderState × List SEffect :=
  if sameDesired candidate st.lastDesired then (st, []) else publishDesired st candidate

/-- Candidate construction in maybePublishScheduledState: overlay the
computed brightness on the last published state and derive the mode from it
(copyMode trivially succeeds on the literals on and off). -/
def buildCandidate (st : SenderState) (brightness : Nat) : Desired :=
  let d := { st.lastDesired with brightness := brightness }
  { d with mode := if d.brightness > 0 then ("on") else ("off") }

/-- Mirrors the decodeSnapshot lambda inside seedVersionFromRedis of the
feature-complete sender (src/unnamed/part_003): only a JSON parse error (or
an empty payload, filtered by the caller) fails; a missing or invalid mode
is ignored rather than fatal, keeping the prior mode; brightness and ver
merge with the usual post-merge clamp. -/
def decodeSnapshot : Option JsonDoc → Desired → Option Desired
  | none, _ => none
  | some doc, out =>
    let d1 :=
      match doc.mode with
      | none => out
      | some s => if s = ("on") ∨ s = ("off") then { out with mode := s } else out
    let d2 := clampBrightness { d1 with brightness := jsonOrUInt8 doc.brightness d1.brightness }
    some { d2 with ver := jsonOrUInt32 doc.ver d2.ver }

/-- Mirrors the loadSnapshot lambda of the same function: the GET result is
none for an absent/null/empty key and otherwise carries the parse result of
the stored text; a missing or unparseable snapshot leaves the out-struct
untouched and reports no usable state.  The transport-failure branch (which
tears the session down before any seeding) is outside this model. -/
def loadSnapshot : Option (Option JsonDoc) → Desired → Desired × Bool
  | none, out => (out, false)
  | some doc?, out =>
    match decodeSnapshot doc? out with
    | none => (out, false)
    | some d => (d, true)

/-- Mirrors seedVersionFromRedis of the feature-complete sender
(src/unnamed/part_003, lines 1103-1175), seeding over a key/value store
view: load the desired snapshot; when it yields no usable state fall back
to the reported key; when neither yields a state use the default off/0/0
struct; then seed the local counter and the last published state from the
chosen snapshot.  (The superseded src/esp-sender revision omits the
reported fallback; the repository README documents the fallback as the
intended behaviour.) -/
def seedVersionFromRedis (st : SenderState)
    (store : String → Option (Option JsonDoc)) : SenderState × Bool :=
  if st.roomId.length = 0 then (st, false)
  else
    let r1 := loadSnapshot (store (key_desired st.roomId)) defaultDesired
    let snap :=
      if r1.2 then r1.1
      else
        let r2 := loadSnapshot (store (key_reported st.roomId)) r1.1
        if r2.2 then r2.1 else defaultDesired
    ({ st with localVer := snap.ver, lastDesired := snap, needsVersionSeed := false }, true)

/-! ## Helper lemmas -/

/-- The defaulting merge for a uint8 destination keeps an in-range stored
value. -/
theorem jsonOrUInt8_ofNat (b dflt : Nat) (h : b ≤ 255) :
    jsonOrUInt8 (some ((b : Nat) : Int)) dflt = b := by
  have h0 : (0 : Int) ≤ ((b : Nat) : Int) := by omega
  have h1 : ((b : Nat) : Int) ≤ 255 := by omega
  simp only [jsonOrUInt8]
  rw [if_pos (And.intro h0 h1)]
  omega

/-- The defaulting merge for a uint32 destination keeps an in-range stored
value. -/
theorem jsonOrUInt32_ofNat (v dflt : Nat) (h : v ≤ 4294967295) :
    jsonOrUInt32 (some ((v : Nat) : Int)) dflt = v := by
  have h0 : (0 : Int) ≤ ((v : Nat) : Int) := by omega
  have h1 : ((v : Nat) : Int) ≤ 4294967295 := by omega
  simp only [jsonOrUInt32]
  rw [if_pos (And.intro h0 h1)]
  omega

/-- The merged uint32 version is always below the uint32 modulus when the
default is. -/
theorem jsonOrUInt32_lt (v : Option Int) (dflt : Nat) (h : dflt < uint32Mod) :
    jsonOrUInt32 v dflt < uint32Mod := by
  rcases v with _ | n
  · exact h
  · simp only [jsonOrUInt32, uint32Mod] at h ⊢
    split
    · next hc => omega
    · exact h

/-- Closed-form description of decodeDesired on a parsed document: the mode
gate decides success, the merged brightness is clamped to 100, and the
merged version defaults to the prior one. -/
theorem decodeDesired_eq (doc : JsonDoc) (prior : Desired) :
    decodeDesired (some doc) prior =
      match doc.mode with
      | none => none
      | some s =>
        if s = ("on") ∨ s = ("off") then
          some { mode := s
                 brightness := min (jsonOrUInt8 doc.brightness prior.brightness) 100
                 ver := jsonOrUInt32 doc.ver prior.ver }
        else none := by
  obtain ⟨mo, br, ve, ro⟩ := doc
  rcases mo with _ | s
  · rfl
  · by_cases hs : s = ("on") ∨ s = ("off")
    · simp only [decodeDesired, copyMode, clampBrightness, if_pos hs]
      split
      · next hgt =>
        simp only [Option.some.injEq, Desired.mk.injEq]
        refine ⟨trivial, by omega, trivial⟩
      · next hgt =>
        simp only [Option.some.injEq, Desired.mk.injEq, not_lt] at *
        refine ⟨trivial, by omega, trivial⟩
    · simp only [decodeDesired, copyMode, if_neg hs]

/-- Specialization of decodeDesired_eq to a document with a present mode. -/
theorem decodeDesired_some_mode (doc : JsonDoc) (prior : Desired) (s : String)
    (hmode : doc.mode = some s) :
    decodeDesired (some doc) prior =
      if s = ("on") ∨ s = ("off") then
        some { mode := s
               brightness := min (jsonOrUInt8 doc.brightness prior.brightness) 100
               ver := jsonOrUInt32 doc.ver prior.ver }
      else none := by
  rw [decodeDesired_eq, hmode]

/-- Specialization of decodeDesired_eq to a document with no usable mode. -/
theorem decodeDesired_none_mode (doc : JsonDoc) (prior : Desired)
    (hmode : doc.mode = none) :
    decodeDesired (some doc) prior = none := by
  rw [decodeDesired_eq, hmode]

/-- Decoding succeeds exactly when the document carries mode on or off. -/
theorem decodeDesired_isSome_iff (doc : JsonDoc) (prior : Desired) :
    (decodeDesired (some doc) prior).isSome = true ↔
      (doc.mode = some ("on") ∨ doc.mode = some ("off")) := by
  rcases hmode : doc.mode with _ | s
  · rw [decodeDesired_none_mode doc prior hmode]
    simp
  · rw [decodeDesired_some_mode doc prior s hmode]
    by_cases hs : s = ("on") ∨ s = ("off")
    · rw [if_pos hs]
      refine ⟨fun _ => ?_, fun _ => rfl⟩
      rcases hs with h | h
      · exact Or.inl (by rw [h])
      · exact Or.inr (by rw [h])
    · rw [if_neg hs]
      simp only [Option.isSome_none, Bool.false_eq_true, false_iff]
      intro hcon
      apply hs
      rcases hcon with h | h
      · exact Or.inl (Option.some.inj h)
      · exact Or.inr (Option.some.inj h)

/-- Decoding the encoding of a valid state over any prior struct recovers
the state exactly; the emitted room field is never consulted. -/
theorem decode_encode (d prior : Desired) (r : Option String)
    (hm : d.mode = ("on") ∨ d.mode = ("off")) (hb : d.brightness ≤ 100)
    (hv : d.ver < uint32Mod) :
    decodeDesired (some (encodeDesired d r)) prior = some d := by
  have hmode : (encodeDesired d r).mode = some d.mode := rfl
  rw [decodeDesired_some_mode (encodeDesired d r) prior d.mode hmode, if_pos hm]
  have hbr : (encodeDesired d r).brightness = some ((d.brightness : Nat) : Int) := rfl
  have hver : (encodeDesired d r).ver = some ((d.ver : Nat) : Int) := rfl
  rw [hbr, hver, jsonOrUInt8_ofNat d.brightness prior.brightness (by omega),
    jsonOrUInt32_ofNat d.ver prior.ver (by simp only [uint32Mod] at hv; omega)]
  have hmin : min d.brightness 100 = d.brightness := by omega
  rw [hmin]

/-- Any successfully decoded state has its brightness in the clamp range,
mode on or off, and (when the prior version was a uint32) a uint32
version. -/
theorem decode_invariants (doc : JsonDoc) (prior d : Desired)
    (h : decodeDesired (some doc) prior = some d) :
    d.brightness ≤ 100 ∧ (d.mode = ("on") ∨ d.mode = ("off")) ∧
      (prior.ver < uint32Mod → d.ver < uint32Mod) := by
  rcases hmode : doc.mode with _ | s
  · rw [decodeDesired_none_mode doc prior hmode] at h
    simp at h
  · rw [decodeDesired_some_mode doc prior s hmode] at h
    by_cases hs : s = ("on") ∨ s = ("off")
    · rw [if_pos hs] at h
      simp only [Option.some.injEq] at h
      subst h
      refine ⟨Nat.min_le_right _ _, hs, fun hp => jsonOrUInt32_lt doc.ver prior.ver hp⟩
    · rw [if_neg hs] at h
      simp at h

/-- Field-default behaviour of the decoder: absent brightness and ver fall
back to the prior struct (brightness still clamped). -/
theorem decode_defaults (doc : JsonDoc) (prior d : Desired)
    (h : decodeDesired (some doc) prior = some d) :
    (doc.brightness = none → d.brightness = min prior.brightness 100) ∧
      (doc.ver = none → d.ver = prior.ver) := by
  rcases hmode : doc.mode with _ | s
  · rw [decodeDesired_none_mode doc prior hmode] at h
    simp at h
  · rw [decodeDesired_some_mode doc prior s hmode] at h
    by_cases hs : s = ("on") ∨ s = ("off")
    · rw [if_pos hs] at h
      simp only [Option.some.injEq] at h
      subst h
      constructor
      · intro hx
        rw [hx]
        rfl
      · intro hx
        rw [hx]
        rfl
    · rw [if_neg hs] at h
      simp at h

/-! ## Claim theorems -/

/-- Claim C3: the wire codec frames a command of N arguments as the array
header followed by one length-prefixed bulk string per argument, so the
three-argument SET command encodes to the exact documented byte string; on
the reply side a five-byte bulk reply parses to its payload with the null
flag clear, a negative bulk length parses as the null reply, a negative
array length parses as the null array, and the null array makes the XREAD
reply parser report no entry with no retained error. -/
theorem resp_codec_framing_c3 :
    encodeCommand (("SET") :: ("k") :: ("v") :: []) =
      ("*3\r\n$3\r\nSET\r\n$1\r\nk\r\n$1\r\nv\r\n") ∧
    readBulkString ("$5\r\nhello\r\n").data =
      { val := some (("hello"), false), err := none, rest := [] } ∧
    readBulkString ("$-1\r\n").data =
      { val := some ((""), true), err := none, rest := [] } ∧
    readArrayLen ("*-1\r\n").data =
      { val := some (-1), err := none, rest := [] } ∧
    readXreadPayload ("*-1\r\n").data =
      { val := none, err := none, rest := [] } := by
  refine ⟨by decide, by decide, by decide, by decide, by decide⟩

/-- Claim C4: decoding fails unless the mode field is exactly on or off
(case-sensitive, missing or other modes are hard failures, as is a JSON
parse error); brightness and ver are optional and default to the prior
struct's values on merge; the decoded brightness always lands in the clamp
range; and re-encoding then re-decoding the decoded result is stable. -/
theorem desired_decode_validation_c4 (doc : JsonDoc) (prior : Desired) :
    ((decodeDesired (some doc) prior).isSome = true ↔
      (doc.mode = some ("on") ∨ doc.mode = some ("off"))) ∧
    decodeDesired none prior = none ∧
    (∀ d, decodeDesired (some doc) prior = some d →
      d.brightness ≤ 100 ∧
      (doc.brightness = none → d.brightness = min prior.brightness 100) ∧
      (doc.ver = none → d.ver = prior.ver) ∧
      (prior.ver < uint32Mod → ∀ r prior2,
        decodeDesired (some (encodeDesired d r)) prior2 = some d)) := by
  refine ⟨decodeDesired_isSome_iff doc prior, rfl, ?_⟩
  intro d h
  obtain ⟨hb, hm, hv⟩ := decode_invariants doc prior d h
  obtain ⟨hdb, hdv⟩ := decode_defaults doc prior d h
  exact ⟨hb, hdb, hdv, fun hp r prior2 => decode_encode d prior2 r hm hb (hv hp)⟩

/-- Document with an over-range brightness used to exercise the clamp. -/
def exDocOver : JsonDoc :=
  { mode := some ("on"), brightness := some 150, ver := some 7, room := none }

/-- Witness for C4 at a concrete document: an over-range brightness decodes
(valid mode) and every decode lands in the clamp range. -/
theorem desired_decode_validation_c4_witness :
    (decodeDesired (some exDocOver) defaultDesired).isSome = true ∧
    decodeDesired (some exDocOver) defaultDesired =
      some { mode := ("on"), brightness := 100, ver := 7 } ∧
    Desired.brightness { mode := ("on"), brightness := 100, ver := 7 } ≤ 100 :=
  ⟨(desired_decode_validation_c4 exDocOver defaultDesired).1.mpr (Or.inl rfl),
   by decide,
   ((desired_decode_validation_c4 exDocOver defaultDesired).2.2
      { mode := ("on"), brightness := 100, ver := 7 } (by decide)).1⟩

/-- Claim C5: for every valid DesiredState, decoding the result of encoding
it (over any prior merge target, with or without a room id) yields the same
state; the room field the encoder may emit is ignored by the decoder. -/
theorem desired_roundtrip_c5 (d prior : Desired) (r : Option String)
    (hm : d.mode = ("on") ∨ d.mode = ("off")) (hb : d.brightness ≤ 100)
    (hv : d.ver < uint32Mod) :
    decodeDesired (some (encodeDesired d r)) prior = some d :=
  decode_encode d prior r hm hb hv

/-- Witness for C5 at a concrete valid state with a room id attached. -/
theorem desired_roundtrip_c5_witness :
    decodeDesired (some (encodeDesired { mode := ("on"), brightness := 50, ver := 1 }
      (some ("7")))) defaultDesired = some { mode := ("on"), brightness := 50, ver := 1 } :=
  desired_roundtrip_c5 { mode := ("on"), brightness := 50, ver := 1 } defaultDesired
    (some ("7")) (Or.inl rfl) (by decide) (by decide)

/-- Closed form of one delivered entry: the cursor always advances to the
delivered id; the payload is applied only when it decodes to a strictly
newer version. -/
theorem deliverEntry_eq (st : ReceiverState) (e : String) (d? : Option JsonDoc) :
    deliverEntry st e d? =
      match decodeDesired d? st.lastDesired with
      | none => ({ st with lastStreamId := e }, [])
      | some d =>
        if d.ver ≤ st.lastAppliedVer then ({ st with lastStreamId := e }, [])
        else
          ({ st with
              lastStreamId := e
              lastDesired := d
              lastAppliedVer := d.ver
              hasDesired := true },
           Effect.pwm d :: recordStateEffects st.roomId (encodeDesired d (some st.roomId))) := by
  rfl

/-- An undecodable payload leaves everything but the cursor untouched. -/
theorem deliverEntry_decode_none (st : ReceiverState) (e : String) (d? : Option JsonDoc)
    (hdec : decodeDesired d? st.lastDesired = none) :
    deliverEntry st e d? = ({ st with lastStreamId := e }, []) := by
  rw [deliverEntry_eq]
  split
  · rfl
  · next a ha =>
    rw [hdec] at ha
    simp at ha

/-- A stale or duplicate version is dropped with no side effect beyond the
cursor advance. -/
theorem deliverEntry_stale (st : ReceiverState) (e : String) (d? : Option JsonDoc)
    (dd : Desired) (hdec : decodeDesired d? st.lastDesired = some dd)
    (hle : dd.ver ≤ st.lastAppliedVer) :
    deliverEntry st e d? = ({ st with lastStreamId := e }, []) := by
  rw [deliverEntry_eq]
  split
  · rfl
  · next a ha =>
    rw [hdec] at ha
    have haa : a = dd := by
      injection ha with hx
      exact hx.symm
    subst haa
    rw [if_pos hle]

/-- A strictly newer version is applied: output driven, last-applied
advanced, state mirrored. -/
theorem deliverEntry_apply (st : ReceiverState) (e : String) (d? : Option JsonDoc)
    (dd : Desired) (hdec : decodeDesired d? st.lastDesired = some dd)
    (hgt : st.lastAppliedVer < dd.ver) :
    deliverEntry st e d? =
      ({ st with
          lastStreamId := e
          lastDesired := dd
          lastAppliedVer := dd.ver
          hasDesired := true },
       Effect.pwm dd :: recordStateEffects st.roomId (encodeDesired dd (some st.roomId))) := by
  rw [deliverEntry_eq]
  split
  · next ha =>
    rw [hdec] at ha
    simp at ha
  · next a ha =>
    rw [hdec] at ha
    have haa : a = dd := by
      injection ha with hx
      exact hx.symm
    subst haa
    rw [if_neg (by omega)]

/-- The applied version never decreases across one delivered entry. -/
theorem deliverEntry_mono (st : ReceiverState) (e : String) (d? : Option JsonDoc) :
    st.lastAppliedVer ≤ (deliverEntry st e d?).1.lastAppliedVer := by
  rcases hdec : decodeDesired d? st.lastDesired with _ | dd
  · rw [deliverEntry_decode_none st e d? hdec]
  · by_cases hle : dd.ver ≤ st.lastAppliedVer
    · rw [deliverEntry_stale st e d? dd hdec hle]
    · rw [deliverEntry_apply st e d? dd hdec (by omega)]
      exact Nat.le_of_lt (by omega : st.lastAppliedVer < dd.ver)

/-- The applied version never decreases across a whole delivery sequence. -/
theorem deliverAll_mono (entries : List (String × Option JsonDoc)) :
    ∀ st : ReceiverState, st.lastAppliedVer ≤ (deliverAll st entries).1.lastAppliedVer := by
  induction entries with
  | nil => intro st; exact Nat.le_refl _
  | cons p rest ih =>
    intro st
    obtain ⟨e, d⟩ := p
    calc st.lastAppliedVer ≤ (deliverEntry st e d).1.lastAppliedVer :=
          deliverEntry_mono st e d
      _ ≤ (deliverAll (deliverEntry st e d).1 rest).1.lastAppliedVer :=
          ih (deliverEntry st e d).1
      _ = (deliverAll st (⟨e, d⟩ :: rest)).1.lastAppliedVer := rfl

/-- Claim C1: over any delivery sequence the applied version is
non-decreasing; for each delivered entry the cursor advances to the
delivered id regardless of the payload; an entry decoding to a version less
than or equal to the last applied one is dropped with no side effect beyond
the cursor advance; and the applied version changes only when the entry
decoded to a strictly newer version, in which case the output is driven,
last-applied advances and the state is mirrored. -/
theorem actuator_monotonic_apply_c1 (st : ReceiverState)
    (entries : List (String × Option JsonDoc)) :
    st.lastAppliedVer ≤ (deliverAll st entries).1.lastAppliedVer ∧
    ∀ e d?,
      (deliverEntry st e d?).1.lastStreamId = e ∧
      (∀ dd, decodeDesired d? st.lastDesired = some dd →
        dd.ver ≤ st.lastAppliedVer →
        deliverEntry st e d? = ({ st with lastStreamId := e }, [])) ∧
      ((deliverEntry st e d?).1.lastAppliedVer ≠ st.lastAppliedVer →
        ∃ dd, decodeDesired d? st.lastDesired = some dd ∧
          st.lastAppliedVer < dd.ver ∧
          deliverEntry st e d? =
            ({ st with
                lastStreamId := e
                lastDesired := dd
                lastAppliedVer := dd.ver
                hasDesired := true },
             Effect.pwm dd ::
               recordStateEffects st.roomId (encodeDesired dd (some st.roomId)))) := by
  refine ⟨deliverAll_mono entries st, ?_⟩
  intro e d?
  refine ⟨?_, ?_, ?_⟩
  · rcases hdec : decodeDesired d? st.lastDesired with _ | dd
    · rw [deliverEntry_decode_none st e d? hdec]
    · by_cases hle : dd.ver ≤ st.lastAppliedVer
      · rw [deliverEntry_stale st e d? dd hdec hle]
      · rw [deliverEntry_apply st e d? dd hdec (by omega)]
  · intro dd hdec hle
    exact deliverEntry_stale st e d? dd hdec hle
  · intro hne
    rcases hdec : decodeDesired d? st.lastDesired with _ | dd
    · exfalso
      apply hne
      rw [deliverEntry_decode_none st e d? hdec]
    · by_cases hle : dd.ver ≤ st.lastAppliedVer
      · exfalso
        apply hne
        rw [deliverEntry_stale st e d? dd hdec hle]
      · exact ⟨dd, rfl, by omega, deliverEntry_apply st e d? dd hdec (by omega)⟩

/-- A steady-state receiver used by concrete scenarios. -/
def exReceiver1 : ReceiverState :=
  { roomId := ("7")
    lastDesired := { mode := ("on"), brightness := 40, ver := 3 }
    hasDesired := true
    lastAppliedVer := 3
    lastStreamId := ("1-1")
    streamCursorValid := true }

/-- A replayed payload carrying the already-applied version 3. -/
def exDocStale : JsonDoc :=
  { mode := some ("on"), brightness := some 30, ver := some 3, room := none }

/-- Witness for C1: a concrete stale entry advances only the cursor. -/
theorem actuator_monotonic_apply_c1_witness :
    deliverEntry exReceiver1 ("2-2") (some exDocStale) =
      ({ exReceiver1 with lastStreamId := ("2-2") }, []) :=
  ((actuator_monotonic_apply_c1 exReceiver1 []).2 ("2-2") (some exDocStale)).2.1
    { mode := ("on"), brightness := 30, ver := 3 } (by decide) (by decide)

/-- Claim C6 (amended): on any transport-level failure the receiver's
dropRedis tears down the connection and resets the room state with the
defaulted dropRoomId = true, so the cached room identity is always dropped,
alongside the applied state, version and cursor — the failure kind passed
to dropRedis is only log text and never preserves the identity. -/
theorem actuator_failure_reset_c6 (st : ReceiverState) (l : Link) :
    dropRedisR st l =
      ({ st with
          hasDesired := false
          lastAppliedVer := 0
          streamCursorValid := false
          lastStreamId := ("")
          roomId := ("") },
       { l with connected := false }) := by
  rfl

/-- Receiver state holding a cached room identity before a transient
failure (the heartbeat write path calls dropRedis on failure). -/
def exReceiver6 : ReceiverState :=
  { roomId := ("7")
    lastDesired := defaultDesired
    hasDesired := true
    lastAppliedVer := 4
    lastStreamId := ("9-1")
    streamCursorValid := true }

/-- A live link as seen right before the transient failure. -/
def exLink6 : Link :=
  { connected := true, input := [], lastError := ("") }

/-- Counterexample for C6 as stated: after an ordinary transient failure
(the context dropRedis receives is log text only, e.g. heartbeat), the
cached room identity is not retained — dropRedis clears it. -/
theorem actuator_failure_reset_c6_counterexample :
    (dropRedisR exReceiver6 exLink6).1.roomId ≠ exReceiver6.roomId := by
  decide

/-- Fresh post-connect receiver for the cold-start scenario. -/
def rec9start : ReceiverState :=
  { roomId := ("7")
    lastDesired := defaultDesired
    hasDesired := false
    lastAppliedVer := 0
    lastStreamId := ("")
    streamCursorValid := false }

/-- First streamed payload of the cold-start scenario. -/
def doc50v1 : JsonDoc :=
  { mode := some ("on"), brightness := some 50, ver := some 1, room := none }

/-- Stale replay of the cold-start scenario (equal version, different
brightness). -/
def doc30v1 : JsonDoc :=
  { mode := some ("on"), brightness := some 30, ver := some 1, room := none }

/-- Receiver state right after the cold-start snapshot pull. -/
def rec9AfterSnap : ReceiverState := (pullSnapshot rec9start none).1

/-- Receiver state after the cursor is re-primed at the stream tail. -/
def rec9Primed : ReceiverState :=
  { rec9AfterSnap with lastStreamId := ("5-1"), streamCursorValid := true }

/-- Result of delivering the first streamed entry of the scenario. -/
def rec9Applied : ReceiverState × List Effect :=
  deliverEntry rec9Primed ("6-1") (some doc50v1)

/-- Claim C9: on cold start with an absent snapshot the actuator applies
the built-in off default, records it as last applied, mirrors it to the
reported key and acknowledgment stream, and invalidates the cursor; the
cursor then re-primes at the current tail; a subsequent streamed entry with
version 1 is applied (1 is newer than 0) and a later equal-version entry
is dropped with only the cursor advancing. -/
theorem actuator_cold_start_c9 :
    pullSnapshot rec9start none =
      ({ rec9start with hasDesired := true },
       Effect.pwm defaultDesired ::
         recordStateEffects ("7") (encodeDesired defaultDesired (some ("7")))) ∧
    primeStreamCursorM rec9AfterSnap (some ("5-1")) = some rec9Primed ∧
    rec9Applied.1 =
      { rec9Primed with
          lastStreamId := ("6-1")
          lastDesired := { mode := ("on"), brightness := 50, ver := 1 }
          lastAppliedVer := 1 } ∧
    rec9Applied.2 =
      Effect.pwm { mode := ("on"), brightness := 50, ver := 1 } ::
        recordStateEffects ("7")
          (encodeDesired { mode := ("on"), brightness := 50, ver := 1 } (some ("7"))) ∧
    deliverEntry rec9Applied.1 ("7-1") (some doc30v1) =
      ({ rec9Applied.1 with lastStreamId := ("7-1") }, []) := by
  refine ⟨by decide, by decide, by decide, by decide, by decide⟩

/-- Closed form of publishDesired when the candidate is not ahead of the
local counter and no uint32 wraparound occurs. -/
theorem publishDesired_eq_le (st : SenderState) (cand : Desired)
    (hle : cand.ver ≤ st.localVer) (h : st.localVer + 1 < uint32Mod) :
    publishDesired st cand =
      ({ st with
          localVer := st.localVer + 1
          lastDesired := { cand with ver := st.localVer + 1 } },
       SEffect.setDesired st.roomId
           (encodeDesired { cand with ver := st.localVer + 1 } (some st.roomId)) ::
         SEffect.xaddCmd st.roomId
           (encodeDesired { cand with ver := st.localVer + 1 } (some st.roomId)) ::
         SEffect.xtrimCmd st.roomId kStreamTrimLen :: []) := by
  unfold publishDesired
  rw [if_pos hle, Nat.mod_eq_of_lt h]

/-- The local counter never decreases across publishDesired short of the
uint32 wraparound. -/
theorem publishDesired_localVer_le (st : SenderState) (cand : Desired)
    (h : st.localVer + 1 < uint32Mod) :
    st.localVer ≤ (publishDesired st cand).1.localVer := by
  by_cases hle : cand.ver ≤ st.localVer
  · rw [publishDesired_eq_le st cand hle h]
    exact Nat.le_succ _
  · unfold publishDesired
    rw [if_neg hle]
    exact Nat.le_of_lt (show st.localVer < cand.ver by omega)

/-- Claim C2 (amended): a candidate equal to the last published state is
suppressed with no write; otherwise a candidate not strictly ahead of the
local counter is published with version localVer+1 — snapshot write, stream
append of the same payload, trim, counter advanced — and the published
version never regresses, provided the local counter is below the uint32
maximum 4294967295 (at which point the source's uint32 increment wraps to
0). -/
theorem publisher_publish_gate_c2 (st : SenderState) (cand : Desired)
    (h : st.localVer + 1 < uint32Mod) :
    (sameDesired cand st.lastDesired = true → attemptPublish st cand = (st, [])) ∧
    (sameDesired cand st.lastDesired = false → cand.ver ≤ st.localVer →
      attemptPublish st cand =
        ({ st with
            localVer := st.localVer + 1
            lastDesired := { cand with ver := st.localVer + 1 } },
         SEffect.setDesired st.roomId
             (encodeDesired { cand with ver := st.localVer + 1 } (some st.roomId)) ::
           SEffect.xaddCmd st.roomId
             (encodeDesired { cand with ver := st.localVer + 1 } (some st.roomId)) ::
           SEffect.xtrimCmd st.roomId kStreamTrimLen :: [])) ∧
    st.localVer ≤ (attemptPublish st cand).1.localVer := by
  refine ⟨?_, ?_, ?_⟩
  · intro hsame
    unfold attemptPublish
    rw [hsame]
    rfl
  · intro hsame hle
    unfold attemptPublish
    rw [hsame]
    simp only [Bool.false_eq_true, if_false]
    exact publishDesired_eq_le st cand hle h
  · cases hsame : sameDesired cand st.lastDesired
    · unfold attemptPublish
      rw [hsame]
      simp only [Bool.false_eq_true, if_false]
      exact publishDesired_localVer_le st cand h
    · unfold attemptPublish
      rw [hsame]
      exact Nat.le_refl _

/-- Publisher seeded at version 5, as in the stale-publish-guard scenario. -/
def seededSender : SenderState :=
  { roomId := ("7")
    localVer := 5
    needsVersionSeed := false
    lastDesired := { mode := ("on"), brightness := 40, ver := 5 } }

/-- Witness for C2: the seeded publisher with a candidate differing only in
brightness writes with version 6 and advances its counter to 6. -/
theorem publisher_publish_gate_c2_witness :
    attemptPublish seededSender (buildCandidate seededSender 70) =
      ({ seededSender with
          localVer := seededSender.localVer + 1
          lastDesired := { buildCandidate seededSender 70 with
                            ver := seededSender.localVer + 1 } },
       SEffect.setDesired seededSender.roomId
           (encodeDesired { buildCandidate seededSender 70 with
                             ver := seededSender.localVer + 1 }
             (some seededSender.roomId)) ::
         SEffect.xaddCmd seededSender.roomId
           (encodeDesired { buildCandidate seededSender 70 with
                             ver := seededSender.localVer + 1 }
             (some seededSender.roomId)) ::
         SEffect.xtrimCmd seededSender.roomId kStreamTrimLen :: []) ∧
    seededSender.localVer + 1 = 6 :=
  ⟨(publisher_publish_gate_c2 seededSender (buildCandidate seededSender 70)
      (by decide)).2.1 (by decide) (by decide),
   by decide⟩

/-- Publisher whose local counter sits at the uint32 maximum. -/
def bigSender : SenderState :=
  { roomId := ("7")
    localVer := 4294967295
    needsVersionSeed := false
    lastDesired := { mode := ("on"), brightness := 40, ver := 4294967295 } }

/-- Counterexample for C2 as stated: at local counter 4294967295 a changed
candidate is published with the wrapped version 0, so the published version
regresses. -/
theorem publisher_publish_gate_c2_counterexample :
    (attemptPublish bigSender (buildCandidate bigSender 70)).1.localVer <
      bigSender.localVer := by
  decide

/-- Reduction of loadSnapshot on a parsed snapshot payload. -/
theorem loadSnapshot_parsed (doc : JsonDoc) (out d : Desired)
    (hdec : decodeSnapshot (some doc) out = some d) :
    loadSnapshot (some (some doc)) out = (d, true) := by
  have hred : loadSnapshot (some (some doc)) out =
      match decodeSnapshot (some doc) out with
      | none => (out, false)
      | some d => (d, true) := rfl
  rw [hred, hdec]

/-- Claim C7: the publisher seeds its counter from the shared desired
snapshot; an absent, null, empty or unparseable primary yields no usable
state, in which case it falls back to the secondary reported key; the
built-in 0 default is used only when neither key yields a usable state.
The seeded snapshot also becomes the last published state. -/
theorem publisher_seed_source_c7 (st : SenderState)
    (store : String → Option (Option JsonDoc)) (h : st.roomId.length ≠ 0) :
    (∀ out : Desired,
      loadSnapshot none out = (out, false) ∧
      loadSnapshot (some none) out = (out, false)) ∧
    (∀ doc d, store (key_desired st.roomId) = some (some doc) →
      decodeSnapshot (some doc) defaultDesired = some d →
      seedVersionFromRedis st store =
        ({ st with localVer := d.ver, lastDesired := d, needsVersionSeed := false }, true)) ∧
    (∀ doc d,
      loadSnapshot (store (key_desired st.roomId)) defaultDesired = (defaultDesired, false) →
      store (key_reported st.roomId) = some (some doc) →
      decodeSnapshot (some doc) defaultDesired = some d →
      seedVersionFromRedis st store =
        ({ st with localVer := d.ver, lastDesired := d, needsVersionSeed := false }, true)) ∧
    (loadSnapshot (store (key_desired st.roomId)) defaultDesired = (defaultDesired, false) →
      loadSnapshot (store (key_reported st.roomId)) defaultDesired = (defaultDesired, false) →
      seedVersionFromRedis st store =
        ({ st with localVer := 0, lastDesired := defaultDesired, needsVersionSeed := false },
         true)) := by
  refine ⟨fun out => ⟨rfl, rfl⟩, ?_, ?_, ?_⟩
  · intro doc d hk hdec
    unfold seedVersionFromRedis
    rw [if_neg h, hk, loadSnapshot_parsed doc defaultDesired d hdec]
    rfl
  · intro doc d h1 hk hdec
    unfold seedVersionFromRedis
    rw [if_neg h, h1, hk]
    dsimp only
    rw [loadSnapshot_parsed doc defaultDesired d hdec]
    rfl
  · intro h1 h2
    unfold seedVersionFromRedis
    rw [if_neg h, h1]
    dsimp only
    rw [h2]
    rfl

/-- Decodable snapshot document carrying version 9. -/
def doc9 : JsonDoc :=
  { mode := some ("on"), brightness := some 20, ver := some 9, room := none }

/-- Publisher about to seed for room 7. -/
def sender7 : SenderState :=
  { roomId := ("7")
    localVer := 0
    needsVersionSeed := true
    lastDesired := defaultDesired }

/-- Store whose desired snapshot is present with version 9. -/
def store9 : String → Option (Option JsonDoc) :=
  fun k => if k = key_desired ("7") then some (some doc9) else none

/-- Store where the desired snapshot is absent but the reported key holds a
decodable state with version 9. -/
def storeReported9 : String → Option (Option JsonDoc) :=
  fun k => if k = key_reported ("7") then some (some doc9) else none

/-- Witness for C7: seeding takes version 9 from a present desired
snapshot, and also takes version 9 through the reported-key fallback when
the desired snapshot is absent. -/
theorem publisher_seed_source_c7_witness :
    seedVersionFromRedis sender7 store9 =
      ({ sender7 with
          localVer := 9
          lastDesired := { mode := ("on"), brightness := 20, ver := 9 }
          needsVersionSeed := false }, true) ∧
    seedVersionFromRedis sender7 storeReported9 =
      ({ sender7 with
          localVer := 9
          lastDesired := { mode := ("on"), brightness := 20, ver := 9 }
          needsVersionSeed := false }, true) :=
  ⟨(publisher_seed_source_c7 sender7 store9 (by decide)).2.1 doc9
      { mode := ("on"), brightness := 20, ver := 9 } (by decide) (by decide),
   (publisher_seed_source_c7 sender7 storeReported9 (by decide)).2.2.1 doc9
      { mode := ("on"), brightness := 20, ver := 9 } (by decide) (by decide) (by decide)⟩

/-- Reduction of pumpStreamStep in the steady state (room known, snapshot
applied, cursor valid). -/
theorem pumpStreamStep_steady (parse : String → Option JsonDoc) (st : ReceiverState)
    (l : Link) (tail : Option String)
    (hg : ¬(st.roomId.length = 0 ∨ st.hasDesired = false))
    (h3 : st.streamCursorValid = true) :
    pumpStreamStep parse st l tail =
      (let x := xreadLatestRun l (stream_cmd st.roomId) kXreadBlockMs
         (if st.lastStreamId.length ≠ 0 then st.lastStreamId else ("0-0"))
       match x.1 with
       | some (entryId, payload) =>
         ((deliverEntry st entryId (parse payload)).1,
          (deliverEntry st entryId (parse payload)).2, x.2, false)
       | none =>
         if x.2.lastError.length ≠ 0 then
           ((dropRedisR st x.2).1, [], (dropRedisR st x.2).2, true)
         else (st, [], x.2, false)) := by
  unfold pumpStreamStep
  rw [if_neg hg, if_pos h3]

/-- Claim C8: with a valid cursor, a null XREAD reply leaves the retained
error empty and the step treats it as no new entry (state unchanged, no
teardown); teardown happens exactly when the blocking read produced no
entry while the retained error string is non-empty after the call. -/
theorem actuator_xread_null_c8 (parse : String → Option JsonDoc)
    (st : ReceiverState) (l : Link) (tail : Option String)
    (h1 : st.roomId.length ≠ 0) (h2 : st.hasDesired = true)
    (h3 : st.streamCursorValid = true) :
    (l.connected = true → l.input = ("*-1\r\n").data →
      pumpStreamStep parse st l tail =
        (st, [], { l with input := [], lastError := ("") }, false)) ∧
    ((pumpStreamStep parse st l tail).2.2.2 = true ↔
      ((xreadLatestRun l (stream_cmd st.roomId) kXreadBlockMs
          (if st.lastStreamId.length ≠ 0 then st.lastStreamId else ("0-0"))).1 = none ∧
       (xreadLatestRun l (stream_cmd st.roomId) kXreadBlockMs
          (if st.lastStreamId.length ≠ 0 then st.lastStreamId else ("0-0"))).2.lastError.length
         ≠ 0)) := by
  have hg : ¬(st.roomId.length = 0 ∨ st.hasDesired = false) := by
    intro hcon
    rcases hcon with hx | hx
    · exact h1 hx
    · rw [h2] at hx
      simp at hx
  constructor
  · intro hc hi
    obtain ⟨lc, li, le⟩ := l
    have hc2 : lc = true := hc
    subst hc2
    have hi2 : li = ("*-1\r\n").data := hi
    subst hi2
    rw [pumpStreamStep_steady parse st _ tail hg h3]
    rfl
  · rw [pumpStreamStep_steady parse st l tail hg h3]
    rcases hx : xreadLatestRun l (stream_cmd st.roomId) kXreadBlockMs
        (if st.lastStreamId.length ≠ 0 then st.lastStreamId else ("0-0")) with ⟨v, l1⟩
    rcases v with _ | p
    · dsimp only
      by_cases hc : l1.lastError.length ≠ 0
      · rw [if_pos hc]
        simp [hc]
      · rw [if_neg hc]
        simp [hc]
    · obtain ⟨a, b⟩ := p
      dsimp only
      simp

/-- Link about to receive a null XREAD reply, with a stale retained error
left over from a previous failure. -/
def link8 : Link :=
  { connected := true, input := ("*-1\r\n").data, lastError := ("boot") }

/-- Witness for C8: at concrete steady state and a null reply the step
clears the stale error, consumes the reply and does not tear down. -/
theorem actuator_xread_null_c8_witness :
    pumpStreamStep (fun _ => none) exReceiver1 link8 none =
      (exReceiver1, [], { link8 with input := [], lastError := ("") }, false) :=
  (actuator_xread_null_c8 (fun _ => none) exReceiver1 link8 none (by decide) (by decide)
    (by decide)).1 (by decide) (by decide)

